import Mathlib

/-!
Shallow embedding of the cancan authorization engine (src/index.js).

Actors and targets are opaque to the engine, so the development is
parameterised over their types.  A rule stored in the ability table is, in
the source, a closure built by `allow` (returning
`predicate(actor) && condition(target, actor)`) or by `deny` (returning a
`Deny` instance when that conjunction holds, else `false`); such a closure
is fully determined by the predicate, the condition and the grant/revoke
branch, which is how `Rule` records it.  The JS fold state is one of
`false`, `true`, or a `Deny` instance; `Verdict` enumerates these three.
Action arguments (`string | string[]` in JS, normalised by `[].concat`)
are modelled as `List String`.
-/

namespace CanCanSpec

variable {α τ : Type} {E F : Type}

/-- Effect tag of a registered rule: built by `allow` (grant) or `deny`
(revoke). -/
inductive Effect where
  | grant
  | revoke
deriving DecidableEq

/-- The three values the per-action reduce in `can` threads: JS `false`,
JS `true`, and an instance of the `Deny` class. -/
inductive Verdict where
  | ff
  | tt
  | denied
deriving DecidableEq

/-- A rule as pushed onto `abilities[action]` by `allow`/`deny`: the data
determining the stored test closure. -/
structure Rule (α τ : Type) where
  predicate : α → Bool
  condition : τ → α → Bool
  effect : Effect

/-- `predicate(actor) && condition(target, actor)`, the shared guard of
both closure bodies. -/
def ruleMatches (r : Rule α τ) (actor : α) (target : τ) : Bool :=
  r.predicate actor && r.condition target actor

/-- The value the stored test closure returns: for an allow rule the
boolean guard itself; for a deny rule `new Deny()` when the guard holds,
else `false`. -/
def runTest (r : Rule α τ) (actor : α) (target : τ) : Verdict :=
  match r.effect with
  | Effect.grant => if ruleMatches r actor target then Verdict.tt else Verdict.ff
  | Effect.revoke => if ruleMatches r actor target then Verdict.denied else Verdict.ff

/-- One step of the reduce inside `can`:
`if (pass instanceof Deny) return pass; else if (pass === true) return
test(actor, target) || pass; return test(actor, target)`. -/
def step (actor : α) (target : τ) (pass : Verdict) (r : Rule α τ) : Verdict :=
  match pass with
  | Verdict.denied => Verdict.denied
  | Verdict.tt =>
    match runTest r actor target with
    | Verdict.ff => Verdict.tt
    | v => v
  | Verdict.ff => runTest r actor target

/-- The conversion at the end of the per-action fold:
`pass instanceof Deny ? false : pass`. -/
def resolve : Verdict → Bool
  | Verdict.denied => false
  | Verdict.tt => true
  | Verdict.ff => false

/-- The engine's `abilities` object: a JS object keyed by action name whose
values are arrays of tests, modelled as an association list in key-insertion
order. -/
abbrev AbilityTable (α τ : Type) := List (String × List (Rule α τ))

/-- Reading `abilities[action]`, with a missing key giving the empty list
(the `filter(Boolean)` in `can` and the `|| []` in `allow`/`deny`/`combine`
erase the difference between a missing key and an empty array). -/
def getTests : AbilityTable α τ → String → List (Rule α τ)
  | [], _ => []
  | (k, v) :: rest, a => if k = a then v else getTests rest a

/-- Writing `abilities[action] = tests`: replace the binding in place if the
key exists, otherwise add it at the end (JS object key-insertion order). -/
def setTests : AbilityTable α τ → String → List (Rule α τ) → AbilityTable α τ
  | [], a, l => [(a, l)]
  | (k, v) :: rest, a, l => if k = a then (a, l) :: rest else (k, v) :: setTests rest a l

/-- The per-action body of `allow`/`deny`:
`tests = abilities[action] || []; tests.push(test); abilities[action] = tests`. -/
def registerRule (t : AbilityTable α τ) (action : String) (r : Rule α τ) : AbilityTable α τ :=
  setTests t action (getTests t action ++ [r])

/-- `[].concat(actions).forEach(...)` over the listed action names. -/
def registerAll (t : AbilityTable α τ) (actions : List String) (r : Rule α τ) : AbilityTable α τ :=
  actions.foldl (fun ab action => registerRule ab action r) t

/-- `allow(predicate, actions, condition)` on table `t` (the registering
path; the predicate-only path is the fluent API below).  The JS default
condition `function () { return true }` is passed explicitly by callers
that omit it. -/
def allow (t : AbilityTable α τ) (predicate : α → Bool) (actions : List String)
    (condition : τ → α → Bool) : AbilityTable α τ :=
  registerAll t actions ⟨predicate, condition, Effect.grant⟩

/-- `deny(predicate, actions, condition)` on table `t` (the registering
path). -/
def deny (t : AbilityTable α τ) (predicate : α → Bool) (actions : List String)
    (condition : τ → α → Bool) : AbilityTable α τ :=
  registerAll t actions ⟨predicate, condition, Effect.revoke⟩

/-- The candidate test sequence built inside `can` for one action:
`[].concat(abilities[action], abilities['manage']).filter(Boolean)`. -/
def candidates (t : AbilityTable α τ) (action : String) : List (Rule α τ) :=
  getTests t action ++ getTests t "manage"

/-- The body of the `every` callback in `can`: fold the candidate sequence
from `false` and convert the final state to a boolean. -/
def canAction (t : AbilityTable α τ) (actor : α) (action : String) (target : τ) : Bool :=
  resolve ((candidates t action).foldl (step actor target) Verdict.ff)

/-- `can(actor, actions, target)`:
`[].concat(actions).every(action => ...)`. -/
def can (t : AbilityTable α τ) (actor : α) (actions : List String) (target : τ) : Bool :=
  actions.all fun action => canAction t actor action target

/-- `cannot(actor, actions, target)`: `!this.can(actor, actions, target)`. -/
def cannot (t : AbilityTable α τ) (actor : α) (actions : List String) (target : τ) : Bool :=
  !(can t actor actions target)

/-- The error object built by the default `createAuthorizationError`:
an `Error` with its message plus the assigned `actor`, `actions`, `target`
and `name` properties. -/
structure AuthorizationError (α τ : Type) where
  message : String
  actor : α
  actions : List String
  target : τ
  name : String

/-- The default error factory `createAuthorizationError(actor, actions,
target)`. -/
def createAuthorizationError (actor : α) (actions : List String) (target : τ) :
    AuthorizationError α τ :=
  ⟨"Action" ++ (if actions.length > 1 then "s" else "") ++ " "
      ++ String.intercalate ", " actions ++ " not permitted",
    actor, actions, target, "AuthorizationError"⟩

/-- `authorize(actor, actions, target)`: throws the value produced by the
engine's (overridable) error factory when `cannot` holds, otherwise returns
nothing.  The factory is a parameter because subclasses may replace
`createAuthorizationError` with one producing any error type `E`. -/
def authorize (errorFactory : α → List String → τ → E) (t : AbilityTable α τ)
    (actor : α) (actions : List String) (target : τ) : Except E Unit :=
  if cannot t actor actions target then Except.error (errorFactory actor actions target)
  else Except.ok ()

/-- Whether an `authorize` outcome is the no-effect return (no throw). -/
def resultOk : Except E Unit → Bool
  | Except.ok _ => true
  | Except.error _ => false

/-- The distinguishable errors thrown by the fluent API. The three
more-than-once errors are the spec's `InvalidState` kind; the condition
error is its `InvalidArgument` kind. -/
inductive FluentErr where
  | cannotCallToMoreThanOnce
  | cannotCallAnythingMoreThanOnce
  | cannotCallOnMoreThanOnce
  | expectedConditionFunction
deriving DecidableEq

/-- Classification of a `FluentErr` as the spec's `InvalidState` kind. -/
def FluentErr.isInvalidState : FluentErr → Bool
  | FluentErr.cannotCallToMoreThanOnce => true
  | FluentErr.cannotCallAnythingMoreThanOnce => true
  | FluentErr.cannotCallOnMoreThanOnce => true
  | FluentErr.expectedConditionFunction => false

/-- The object returned by `allow(predicate)` / `deny(predicate)`: the
captured predicate and registration effect plus the closure's `called`
latch. -/
structure Builder (α τ : Type) where
  predicate : α → Bool
  effect : Effect
  called : Bool

/-- The object returned by `.to(actions)`: the captured data plus the
closure's `finished` latch. -/
structure Ender (α τ : Type) where
  predicate : α → Bool
  effect : Effect
  actions : List String
  finished : Bool

/-- `allow(predicate)` with no further arguments: a fresh fluent builder
bound to the allow registration. -/
def fluentAllow (predicate : α → Bool) : Builder α τ :=
  ⟨predicate, Effect.grant, false⟩

/-- `deny(predicate)` with no further arguments: a fresh fluent builder
bound to the deny registration. -/
def fluentDeny (predicate : α → Bool) : Builder α τ :=
  ⟨predicate, Effect.revoke, false⟩

/-- Dispatch on the captured `allowOrDeny` registration function. -/
def registerEffect : Effect → AbilityTable α τ → (α → Bool) → List String →
    (τ → α → Bool) → AbilityTable α τ
  | Effect.grant, t, p, acts, c => allow t p acts c
  | Effect.revoke, t, p, acts, c => deny t p acts c

/-- `.to(...actions)`.  The JS closure mutates its `called` latch and either
throws or returns the `on`/`anything` object; both the updated latch state
and the thrown-or-returned outcome are made explicit. -/
def Builder.to (b : Builder α τ) (actions : List String) :
    Builder α τ × Except FluentErr (Ender α τ) :=
  if b.called then (b, Except.error FluentErr.cannotCallToMoreThanOnce)
  else
    (⟨b.predicate, b.effect, true⟩,
      Except.ok ⟨b.predicate, b.effect, actions, false⟩)

/-- `.anything()` on the object returned by `to`, acting on engine table
`t`: sets the `finished` latch then registers with an always-true
condition. -/
def Ender.anything (e : Ender α τ) (t : AbilityTable α τ) :
    Ender α τ × Except FluentErr (AbilityTable α τ) :=
  if e.finished then (e, Except.error FluentErr.cannotCallAnythingMoreThanOnce)
  else
    (⟨e.predicate, e.effect, e.actions, true⟩,
      Except.ok (registerEffect e.effect t e.predicate e.actions (fun _ _ => true)))

/-- `.on(condition)` on the object returned by `to`, acting on engine table
`t`.  A non-callable condition argument is `none`.  Note the source sets
`finished = true` before checking that the condition is a function, so the
latch is set even on the `expectedConditionFunction` throw. -/
def Ender.on (e : Ender α τ) (condition : Option (τ → α → Bool)) (t : AbilityTable α τ) :
    Ender α τ × Except FluentErr (AbilityTable α τ) :=
  if e.finished then (e, Except.error FluentErr.cannotCallOnMoreThanOnce)
  else
    match condition with
    | some c =>
      (⟨e.predicate, e.effect, e.actions, true⟩,
        Except.ok (registerEffect e.effect t e.predicate e.actions c))
    | none =>
      (⟨e.predicate, e.effect, e.actions, true⟩,
        Except.error FluentErr.expectedConditionFunction)

/-- The per-input body of `CanCan.combine`: for each key of the input's
abilities object, `abilities[action] = (abilities[action] || [])
.concat(canCan.abilities[action])`. -/
def combineInto (acc : AbilityTable α τ) (src : AbilityTable α τ) : AbilityTable α τ :=
  src.foldl (fun ab entry => setTests ab entry.1 (getTests ab entry.1 ++ entry.2)) acc

/-- `CanCan.combine(...canCans)`: reduce the inputs left-to-right into a
fresh empty table. -/
def combine (canCans : List (AbilityTable α τ)) : AbilityTable α τ :=
  canCans.foldl combineInto []

/-- A JS object never binds the same key twice; every table reachable
through the engine's API satisfies this. -/
def TableWF (t : AbilityTable α τ) : Prop :=
  (t.map Prod.fst).Nodup

/-! ## Fold lemmas -/

theorem foldl_step_denied (actor : α) (target : τ) (l : List (Rule α τ)) :
    l.foldl (step actor target) Verdict.denied = Verdict.denied := by
  induction l with
  | nil => rfl
  | cons r rest ih => simpa [step] using ih

theorem step_matching_revoke (actor : α) (target : τ) (s : Verdict) (r : Rule α τ)
    (he : r.effect = Effect.revoke) (hm : ruleMatches r actor target = true) :
    step actor target s r = Verdict.denied := by
  cases s <;> simp [step, runTest, he, hm]

theorem revoke_kills (actor : α) (target : τ) (s : Verdict) (r : Rule α τ)
    (pre post : List (Rule α τ))
    (he : r.effect = Effect.revoke) (hm : ruleMatches r actor target = true) :
    resolve ((pre ++ r :: post).foldl (step actor target) s) = false := by
  rw [List.foldl_append, List.foldl_cons,
    step_matching_revoke actor target _ r he hm, foldl_step_denied]
  rfl

theorem step_idem (actor : α) (target : τ) (s : Verdict) (r : Rule α τ) :
    step actor target (step actor target s r) r = step actor target s r := by
  cases s <;> cases h : runTest r actor target <;> simp [step, h]

theorem foldl_step_replicate_eq (actor : α) (target : τ) (s : Verdict) (r : Rule α τ)
    (n : Nat) :
    (List.replicate n r).foldl (step actor target) s =
      if n = 0 then s else step actor target s r := by
  induction n generalizing s with
  | zero => rfl
  | succ n ih =>
    rw [List.replicate_succ, List.foldl_cons, ih]
    cases n <;> simp [step_idem]

theorem foldl_step_all_ff (actor : α) (target : τ) (l : List (Rule α τ))
    (h : ∀ r ∈ l, runTest r actor target = Verdict.ff) :
    l.foldl (step actor target) Verdict.ff = Verdict.ff := by
  induction l with
  | nil => rfl
  | cons r rest ih =>
    have hr : runTest r actor target = Verdict.ff := h r (List.mem_cons_self r rest)
    rw [List.foldl_cons]
    have hstep : step actor target Verdict.ff r = Verdict.ff := by
      simp [step, hr]
    rw [hstep]
    exact ih fun r' hr' => h r' (List.mem_cons_of_mem r hr')

/-! ## Table lemmas -/

theorem getTests_setTests_self (t : AbilityTable α τ) (a : String) (l : List (Rule α τ)) :
    getTests (setTests t a l) a = l := by
  induction t with
  | nil => simp [setTests, getTests]
  | cons kv rest ih =>
    by_cases h : kv.1 = a
    · simp [setTests, getTests, h]
    · simp [setTests, getTests, h, ih]

theorem getTests_setTests_ne (t : AbilityTable α τ) (a b : String) (l : List (Rule α τ))
    (hab : b ≠ a) :
    getTests (setTests t a l) b = getTests t b := by
  induction t with
  | nil => simp [setTests, getTests, Ne.symm hab]
  | cons kv rest ih =>
    by_cases h : kv.1 = a
    · have hb : a ≠ b := fun h' => hab h'.symm
      simp [setTests, getTests, h, hb]
    · by_cases h2 : kv.1 = b
      · simp [setTests, getTests, h, h2, hab]
      · simp [setTests, getTests, h, h2, ih]

theorem getTests_registerRule (t : AbilityTable α τ) (b a : String) (r : Rule α τ) :
    getTests (registerRule t b r) a =
      getTests t a ++ (if a = b then [r] else []) := by
  by_cases h : a = b
  · subst h
    simp [registerRule, getTests_setTests_self]
  · simp [registerRule, getTests_setTests_ne t b a _ h, h]

theorem getTests_registerAll (t : AbilityTable α τ) (actions : List String) (a : String)
    (r : Rule α τ) :
    getTests (registerAll t actions r) a =
      getTests t a ++ List.replicate (actions.count a) r := by
  induction actions generalizing t with
  | nil => simp [registerAll]
  | cons b rest ih =>
    rw [registerAll, List.foldl_cons]
    have : rest.foldl (fun ab action => registerRule ab action r) (registerRule t b r) =
        registerAll (registerRule t b r) rest r := rfl
    rw [this, ih, getTests_registerRule, List.count_cons, List.append_assoc]
    by_cases h : a = b
    · simp [h, List.replicate_succ, Nat.add_comm]
    · have hb : ¬ ((b == a) = true) := by
        simp [h]
        exact fun h' => h h'.symm
      simp [h, hb]

theorem getTests_eq_nil_of_not_mem (t : AbilityTable α τ) (a : String)
    (h : a ∉ t.map Prod.fst) :
    getTests t a = [] := by
  induction t with
  | nil => rfl
  | cons kv rest ih =>
    simp only [List.map_cons, List.mem_cons] at h
    push_neg at h
    have h1 : kv.1 ≠ a := fun h' => h.1 h'.symm
    simp [getTests, h1, ih h.2]

theorem getTests_combineInto (acc src : AbilityTable α τ) (a : String)
    (hwf : TableWF src) :
    getTests (combineInto acc src) a = getTests acc a ++ getTests src a := by
  induction src generalizing acc with
  | nil => simp [combineInto, getTests]
  | cons kv rest ih =>
    rw [combineInto, List.foldl_cons]
    have hwf' : TableWF rest := (List.nodup_cons.mp hwf).2
    have hrec : rest.foldl
        (fun ab entry => setTests ab entry.1 (getTests ab entry.1 ++ entry.2))
        (setTests acc kv.1 (getTests acc kv.1 ++ kv.2)) =
        combineInto (setTests acc kv.1 (getTests acc kv.1 ++ kv.2)) rest := rfl
    rw [hrec, ih _ hwf']
    by_cases h : a = kv.1
    · rw [h, getTests_setTests_self]
      have hmem : kv.1 ∉ rest.map Prod.fst := (List.nodup_cons.mp hwf).1
      rw [getTests_eq_nil_of_not_mem rest kv.1 hmem]
      simp [getTests]
    · rw [getTests_setTests_ne _ _ _ _ h]
      have h1 : kv.1 ≠ a := fun h' => h h'.symm
      simp [getTests, h1]

theorem getTests_combine (es : List (AbilityTable α τ)) (a : String)
    (hwf : ∀ e ∈ es, TableWF e) :
    getTests (combine es) a = (es.map (fun e => getTests e a)).flatten := by
  have main : ∀ (es : List (AbilityTable α τ)) (acc : AbilityTable α τ),
      (∀ e ∈ es, TableWF e) →
      getTests (es.foldl combineInto acc) a =
        getTests acc a ++ (es.map (fun e => getTests e a)).flatten := by
    intro es
    induction es with
    | nil => intro acc _; simp
    | cons e rest ih =>
      intro acc h
      rw [List.foldl_cons, ih _ fun e' he' => h e' (List.mem_cons_of_mem e he'),
        getTests_combineInto _ _ _ (h e (List.mem_cons_self e rest))]
      simp [List.append_assoc]
  have := main es [] hwf
  rw [combine, this]
  rfl

/-! ## Claims -/

/-- Claim C1: sticky deny.  Once the fold state carried by `can` is the
`Denied` marker it absorbs every remaining rule and the action resolves
`false`; a matching Revoke reached anywhere in the candidate sequence
forces the verdict to `false` no matter what rules (including matching
Grants) follow; in particular a matching Grant under action `"x"` followed
by a matching Revoke under `"x"` makes `can` return `false`. -/
theorem C1_sticky_deny (actor : α) (target : τ) :
    (∀ rules : List (Rule α τ),
      resolve (rules.foldl (step actor target) Verdict.denied) = false) ∧
    (∀ (s : Verdict) (r : Rule α τ) (pre post : List (Rule α τ)),
      r.effect = Effect.revoke → ruleMatches r actor target = true →
      resolve ((pre ++ r :: post).foldl (step actor target) s) = false) ∧
    (∀ (p1 p2 : α → Bool) (c1 c2 : τ → α → Bool),
      p2 actor = true → c2 target actor = true →
      can (deny (allow ([] : AbilityTable α τ) p1 ["x"] c1) p2 ["x"] c2)
        actor ["x"] target = false) := by
  refine ⟨?_, ?_, ?_⟩
  · intro rules
    rw [foldl_step_denied]
    rfl
  · intro s r pre post he hm
    exact revoke_kills actor target s r pre post he hm
  · intro p1 p2 c1 c2 hp hc
    have hd : ruleMatches (⟨p2, c2, Effect.revoke⟩ : Rule α τ) actor target = true := by
      simp [ruleMatches, hp, hc]
    have hone : canAction (deny (allow ([] : AbilityTable α τ) p1 ["x"] c1) p2 ["x"] c2)
        actor "x" target = false :=
      revoke_kills actor target Verdict.ff (⟨p2, c2, Effect.revoke⟩ : Rule α τ)
        [⟨p1, c1, Effect.grant⟩] [] rfl hd
    simp [can, hone]

/-- Closed instance of C1 with always-true predicates over `Nat`
actors/targets. -/
theorem C1_sticky_deny_witness :
    resolve (([] : List (Rule Nat Nat)).foldl (step 0 0) Verdict.denied) = false ∧
    can (deny (allow ([] : AbilityTable Nat Nat) (fun _ => true) ["x"] (fun _ _ => true))
      (fun _ => true) ["x"] (fun _ _ => true)) 0 ["x"] 0 = false :=
  ⟨(C1_sticky_deny 0 0).1 [],
    (C1_sticky_deny 0 0).2.2 (fun _ => true) (fun _ => true) (fun _ _ => true)
      (fun _ _ => true) rfl rfl⟩

/-- Claim C2: wildcard precedence.  The candidate sequence folded for one
action is the table's sequence for that exact action name followed by the
table's sequence for the literal name `"manage"`; consequently a matching
action-specific Revoke registered under `"read"` makes `can(actor, "read",
target)` false even when a matching wildcard Grant is registered under
`"manage"`, whatever rules the table already held. -/
theorem C2_wildcard_precedence (t : AbilityTable α τ) (actor : α) (action : String)
    (target : τ) (p1 p2 : α → Bool) (c1 c2 : τ → α → Bool)
    (hp : p2 actor = true) (hc : c2 target actor = true) :
    canAction t actor action target =
      resolve ((getTests t action ++ getTests t "manage").foldl (step actor target)
        Verdict.ff) ∧
    can (deny (allow t p1 ["manage"] c1) p2 ["read"] c2) actor ["read"] target = false := by
  constructor
  · rfl
  · have hd : ruleMatches (⟨p2, c2, Effect.revoke⟩ : Rule α τ) actor target = true := by
      simp [ruleMatches, hp, hc]
    have h1 : getTests (deny (allow t p1 ["manage"] c1) p2 ["read"] c2) "read" =
        getTests (allow t p1 ["manage"] c1) "read" ++ [(⟨p2, c2, Effect.revoke⟩ : Rule α τ)] := by
      rw [deny, getTests_registerAll]
      simp
    have hone : canAction (deny (allow t p1 ["manage"] c1) p2 ["read"] c2)
        actor "read" target = false := by
      simp only [canAction, candidates, h1, List.append_assoc, List.singleton_append]
      exact revoke_kills actor target Verdict.ff (⟨p2, c2, Effect.revoke⟩ : Rule α τ)
        (getTests (allow t p1 ["manage"] c1) "read") _ rfl hd
    simp [can, hone]

/-- Closed instance of C2 on the empty table with always-true predicates. -/
theorem C2_wildcard_precedence_witness :
    (canAction ([] : AbilityTable Nat Nat) 0 "read" 0 =
      resolve ((getTests ([] : AbilityTable Nat Nat) "read"
        ++ getTests ([] : AbilityTable Nat Nat) "manage").foldl (step 0 0) Verdict.ff)) ∧
    can (deny (allow ([] : AbilityTable Nat Nat) (fun _ => true) ["manage"] (fun _ _ => true))
      (fun _ => true) ["read"] (fun _ _ => true)) 0 ["read"] 0 = false :=
  C2_wildcard_precedence [] 0 "read" 0 (fun _ => true) (fun _ => true)
    (fun _ _ => true) (fun _ _ => true) rfl rfl

/-- Claim C5: multi-action conjunction.  `can` over a list of action names
is true exactly when every listed name independently resolves permitted,
and an action name with no registered rules and no matching rule under
`"manage"` resolves `false`. -/
theorem C5_multi_action_conjunction (t : AbilityTable α τ) (actor : α)
    (actions : List String) (target : τ) :
    (can t actor actions target = true ↔
      ∀ a ∈ actions, canAction t actor a target = true) ∧
    (∀ a : String, getTests t a = [] →
      (∀ r ∈ getTests t "manage", ruleMatches r actor target = false) →
      canAction t actor a target = false) := by
  constructor
  · simp [can, List.all_eq_true]
  · intro a ha hm
    have hff : ∀ r ∈ getTests t "manage", runTest r actor target = Verdict.ff := by
      intro r hr
      have hmr := hm r hr
      cases hre : r.effect <;> simp [runTest, hre, hmr]
    simp only [canAction, candidates, ha, List.nil_append]
    rw [foldl_step_all_ff actor target _ hff]
    rfl

/-- Closed instance of C5: a table with only a `"write"` rule, queried for
`"read"`. -/
theorem C5_multi_action_conjunction_witness :
    (can ([("write", [(⟨fun _ => true, fun _ _ => true, Effect.grant⟩ : Rule Nat Nat)])])
        0 ["read"] 0 = true ↔
      ∀ a ∈ ["read"],
        canAction
          ([("write", [(⟨fun _ => true, fun _ _ => true, Effect.grant⟩ : Rule Nat Nat)])])
          0 a 0 = true) ∧
    canAction ([("write", [(⟨fun _ => true, fun _ _ => true, Effect.grant⟩ : Rule Nat Nat)])])
      0 "read" 0 = false :=
  ⟨(C5_multi_action_conjunction
      [("write", [(⟨fun _ => true, fun _ _ => true, Effect.grant⟩ : Rule Nat Nat)])]
      0 ["read"] 0).1,
    (C5_multi_action_conjunction
      [("write", [(⟨fun _ => true, fun _ _ => true, Effect.grant⟩ : Rule Nat Nat)])]
      0 ["read"] 0).2 "read" rfl (by intro r hr; simp [getTests] at hr)⟩

/-- Claim C6: `cannot` is exactly the boolean negation of `can` for every
table, actor, actions value, and target. -/
theorem C6_cannot_is_negation_of_can (t : AbilityTable α τ) (actor : α)
    (actions : List String) (target : τ) :
    cannot t actor actions target = !(can t actor actions target) :=
  rfl

/-- Claim C10: the empty action list is vacuously permitted: `can` returns
`true` on `[]` for every table, actor and target, and `authorize` never
raises there, whatever the error factory. -/
theorem C10_empty_actions_vacuously_permitted (t : AbilityTable α τ) (actor : α)
    (target : τ) (errorFactory : α → List String → τ → E) :
    can t actor [] target = true ∧
      authorize errorFactory t actor [] target = Except.ok () :=
  ⟨rfl, rfl⟩

/-- Claim C4: `authorize` has no effect and no return value on a permitted
triple; on a denied triple it raises the value produced by the engine's
error factory applied to the triple; the default error object carries the
original actor, actions and target as fields; and replacing the factory
(by any factory, of any error type) never changes whether `authorize`
raises. -/
theorem C4_authorize_error_factory (errorFactory : α → List String → τ → E)
    (otherFactory : α → List String → τ → F) (t : AbilityTable α τ) (actor : α)
    (actions : List String) (target : τ) :
    (authorize errorFactory t actor actions target = Except.ok () ↔
      can t actor actions target = true) ∧
    (cannot t actor actions target = true →
      authorize errorFactory t actor actions target =
        Except.error (errorFactory actor actions target)) ∧
    ((createAuthorizationError actor actions target).actor = actor ∧
      (createAuthorizationError actor actions target).actions = actions ∧
      (createAuthorizationError actor actions target).target = target) ∧
    resultOk (authorize errorFactory t actor actions target) =
      resultOk (authorize otherFactory t actor actions target) := by
  refine ⟨?_, ?_, ⟨rfl, rfl, rfl⟩, ?_⟩
  · cases h : can t actor actions target <;> simp [authorize, cannot, h]
  · intro h
    simp [authorize, h]
  · cases h : cannot t actor actions target <;> simp [authorize, h, resultOk]

/-- Closed instance of C4: the empty table denies `"read"`, so `authorize`
raises the factory's value, and raising is factory-independent. -/
theorem C4_authorize_error_factory_witness :
    authorize createAuthorizationError ([] : AbilityTable Nat Nat) 0 ["read"] 0 =
      Except.error (createAuthorizationError 0 ["read"] 0) ∧
    resultOk (authorize createAuthorizationError ([] : AbilityTable Nat Nat) 0 ["read"] 0) =
      resultOk (authorize (fun _ _ _ => (0 : Nat)) ([] : AbilityTable Nat Nat) 0 ["read"] 0) :=
  ⟨(C4_authorize_error_factory createAuthorizationError (fun _ _ _ => (0 : Nat))
      [] 0 ["read"] 0).2.1 rfl,
    (C4_authorize_error_factory createAuthorizationError (fun _ _ _ => (0 : Nat))
      [] 0 ["read"] 0).2.2.2⟩

theorem foldl_step_rep_twice (actor : α) (target : τ) (s : Verdict) (r : Rule α τ)
    (n : Nat) :
    (List.replicate n r).foldl (step actor target)
      ((List.replicate n r).foldl (step actor target) s) =
      (List.replicate n r).foldl (step actor target) s := by
  cases n with
  | zero => rfl
  | succ n =>
    rw [foldl_step_replicate_eq, foldl_step_replicate_eq]
    simp [step_idem]

theorem canAction_registerAll_twice (t : AbilityTable α τ) (acts : List String)
    (r : Rule α τ) (actor : α) (a : String) (target : τ) :
    canAction (registerAll (registerAll t acts r) acts r) actor a target =
      canAction (registerAll t acts r) actor a target := by
  simp only [canAction, candidates, getTests_registerAll, List.foldl_append,
    foldl_step_rep_twice]

/-- Claim C7: registering the same rule (same predicate, condition, effect
and action list) twice in succession yields the same `can` verdict as
registering it once, for both `allow` and `deny`. -/
theorem C7_duplicate_registration_idempotent (t : AbilityTable α τ)
    (predicate : α → Bool) (acts : List String) (condition : τ → α → Bool)
    (actor : α) (queryActions : List String) (target : τ) :
    can (allow (allow t predicate acts condition) predicate acts condition)
        actor queryActions target =
      can (allow t predicate acts condition) actor queryActions target ∧
    can (deny (deny t predicate acts condition) predicate acts condition)
        actor queryActions target =
      can (deny t predicate acts condition) actor queryActions target := by
  constructor
  · unfold can allow
    congr 1
    funext a
    exact canAction_registerAll_twice t acts _ actor a target
  · unfold can deny
    congr 1
    funext a
    exact canAction_registerAll_twice t acts _ actor a target

/-- Claim C8: fluent one-shot steps.  A second `to` on the same builder
errors; after the chain reaches Finished via `anything` or via a successful
`on`, any further `on` or `anything` (in any combination) errors with the
corresponding more-than-once (InvalidState) error. -/
theorem C8_fluent_one_shot (b : Builder α τ) (acts acts2 : List String)
    (e : Ender α τ) (c c2 : Option (τ → α → Bool)) (cond : τ → α → Bool)
    (t t2 : AbilityTable α τ)
    (hb : b.called = false) (he : e.finished = false) :
    ((b.to acts).1.to acts2).2 = Except.error FluentErr.cannotCallToMoreThanOnce ∧
    (((e.anything t).1.on c t2).2 = Except.error FluentErr.cannotCallOnMoreThanOnce ∧
      ((e.anything t).1.anything t2).2 =
        Except.error FluentErr.cannotCallAnythingMoreThanOnce) ∧
    (((e.on (some cond) t).1.on c2 t2).2 =
        Except.error FluentErr.cannotCallOnMoreThanOnce ∧
      ((e.on (some cond) t).1.anything t2).2 =
        Except.error FluentErr.cannotCallAnythingMoreThanOnce) := by
  refine ⟨?_, ⟨?_, ?_⟩, ⟨?_, ?_⟩⟩ <;>
    simp [Builder.to, Ender.on, Ender.anything, hb, he]

/-- Closed instance of C8 over `Nat` actors/targets. -/
theorem C8_fluent_one_shot_witness :
    (((fluentAllow (fun _ => true) : Builder Nat Nat).to ["read"]).1.to ["write"]).2 =
      Except.error FluentErr.cannotCallToMoreThanOnce ∧
    ((((⟨fun _ => true, Effect.grant, ["read"], false⟩ : Ender Nat Nat).anything []).1.on
        (some fun _ _ => true) []).2 = Except.error FluentErr.cannotCallOnMoreThanOnce ∧
      (((⟨fun _ => true, Effect.grant, ["read"], false⟩ : Ender Nat Nat).anything
          []).1.anything []).2 =
        Except.error FluentErr.cannotCallAnythingMoreThanOnce) ∧
    ((((⟨fun _ => true, Effect.grant, ["read"], false⟩ : Ender Nat Nat).on
        (some fun _ _ => true) []).1.on (some fun _ _ => true) []).2 =
        Except.error FluentErr.cannotCallOnMoreThanOnce ∧
      (((⟨fun _ => true, Effect.grant, ["read"], false⟩ : Ender Nat Nat).on
          (some fun _ _ => true) []).1.anything []).2 =
        Except.error FluentErr.cannotCallAnythingMoreThanOnce) :=
  C8_fluent_one_shot (fluentAllow (fun _ => true)) ["read"] ["write"]
    (⟨fun _ => true, Effect.grant, ["read"], false⟩ : Ender Nat Nat)
    (some fun _ _ => true) (some fun _ _ => true) (fun _ _ => true) [] [] rfl rfl

/-- Counterexample to claim C9 as stated: after `on` is called with a
non-callable condition, the builder session does NOT remain usable — the
`finished` latch was already set, so a subsequent `on` with a valid
condition (or `anything`) fails with the more-than-once error instead of
completing registration. -/
theorem C9_failed_on_counterexample :
    ((⟨fun _ => true, Effect.grant, ["read"], false⟩ : Ender Nat Nat).on none []).2 =
      Except.error FluentErr.expectedConditionFunction ∧
    ((⟨fun _ => true, Effect.grant, ["read"], false⟩ : Ender Nat Nat).on none []).1.finished =
      true ∧
    (((⟨fun _ => true, Effect.grant, ["read"], false⟩ : Ender Nat Nat).on none []).1.on
        (some fun _ _ => true) []).2 =
      Except.error FluentErr.cannotCallOnMoreThanOnce ∧
    (((⟨fun _ => true, Effect.grant, ["read"], false⟩ : Ender Nat Nat).on none
        []).1.anything []).2 =
      Except.error FluentErr.cannotCallAnythingMoreThanOnce :=
  ⟨rfl, rfl, rfl, rfl⟩

/-- Claim C9 as amended: `on` with a non-callable condition fails with the
InvalidArgument error and registers nothing (no table is produced), but the
source sets the `finished` latch before validating the condition, so the
session leaves ActionsChosen and every subsequent `on` or `anything` fails
with the more-than-once (InvalidState) error. -/
theorem C9_failed_on_amended (e : Ender α τ) (t t2 : AbilityTable α τ)
    (cond : τ → α → Bool) (he : e.finished = false) :
    (e.on none t).2 = Except.error FluentErr.expectedConditionFunction ∧
    (e.on none t).1.finished = true ∧
    ((e.on none t).1.on (some cond) t2).2 =
      Except.error FluentErr.cannotCallOnMoreThanOnce ∧
    ((e.on none t).1.anything t2).2 =
      Except.error FluentErr.cannotCallAnythingMoreThanOnce := by
  simp [Ender.on, Ender.anything, he]

/-- Closed instance of the amended C9. -/
theorem C9_failed_on_amended_witness :
    ((⟨fun _ => true, Effect.revoke, ["write"], false⟩ : Ender Nat Nat).on none []).2 =
      Except.error FluentErr.expectedConditionFunction ∧
    ((⟨fun _ => true, Effect.revoke, ["write"], false⟩ : Ender Nat Nat).on none
      []).1.finished = true ∧
    (((⟨fun _ => true, Effect.revoke, ["write"], false⟩ : Ender Nat Nat).on none []).1.on
        (some fun _ _ => true) []).2 =
      Except.error FluentErr.cannotCallOnMoreThanOnce ∧
    (((⟨fun _ => true, Effect.revoke, ["write"], false⟩ : Ender Nat Nat).on none
        []).1.anything []).2 =
      Except.error FluentErr.cannotCallAnythingMoreThanOnce :=
  C9_failed_on_amended (⟨fun _ => true, Effect.revoke, ["write"], false⟩ : Ender Nat Nat)
    [] [] (fun _ _ => true) rfl

/-- Claim C3: `combine` builds a table mapping each action name to the
left-to-right concatenation of the inputs' sequences for that name (inputs
with JS-object tables, i.e. no duplicate keys), and evaluation on the
combined engine is the fold over the concatenated candidate sequence — not
the disjunction of independent evaluations, as the closed third conjunct
shows (a grant-only engine OR'd with a revoke-only engine would permit,
while the combined engine denies). -/
theorem C3_combine_concatenates (es : List (AbilityTable α τ)) (a : String)
    (actor : α) (target : τ) (hwf : ∀ e ∈ es, TableWF e) :
    getTests (combine es) a = (es.map (fun e => getTests e a)).flatten ∧
    canAction (combine es) actor a target =
      resolve (((es.map (fun e => getTests e a)).flatten ++
        (es.map (fun e => getTests e "manage")).flatten).foldl (step actor target)
        Verdict.ff) ∧
    (canAction
        (combine [[("read", [(⟨fun _ => true, fun _ _ => true, Effect.grant⟩ : Rule Nat Nat)])],
          [("read", [(⟨fun _ => true, fun _ _ => true, Effect.revoke⟩ : Rule Nat Nat)])]])
        0 "read" 0 = false ∧
      (canAction [("read", [(⟨fun _ => true, fun _ _ => true, Effect.grant⟩ : Rule Nat Nat)])]
          0 "read" 0 ||
        canAction [("read", [(⟨fun _ => true, fun _ _ => true, Effect.revoke⟩ : Rule Nat Nat)])]
          0 "read" 0) = true) := by
  refine ⟨getTests_combine es a hwf, ?_, rfl, rfl⟩
  simp only [canAction, candidates, getTests_combine es a hwf,
    getTests_combine es "manage" hwf]

/-- Closed instance of C3 with two single-rule well-formed engines. -/
theorem C3_combine_concatenates_witness :
    getTests
        (combine [[("read", [(⟨fun _ => true, fun _ _ => true, Effect.grant⟩ : Rule Nat Nat)])],
          [("write", [(⟨fun _ => true, fun _ _ => true, Effect.revoke⟩ : Rule Nat Nat)])]])
        "read" =
      (([[("read", [(⟨fun _ => true, fun _ _ => true, Effect.grant⟩ : Rule Nat Nat)])],
        [("write", [(⟨fun _ => true, fun _ _ => true, Effect.revoke⟩ : Rule Nat Nat)])]].map
          (fun e => getTests e "read"))).flatten :=
  (C3_combine_concatenates
    [[("read", [(⟨fun _ => true, fun _ _ => true, Effect.grant⟩ : Rule Nat Nat)])],
      [("write", [(⟨fun _ => true, fun _ _ => true, Effect.revoke⟩ : Rule Nat Nat)])]]
    "read" 0 0
    (by
      intro e he
      rcases List.mem_cons.mp he with h | h
      · rw [h]; exact List.nodup_singleton _
      · rcases List.mem_cons.mp h with h2 | h2
        · rw [h2]; exact List.nodup_singleton _
        · cases h2)).1

end CanCanSpec
